import Mathlib

/-! Verification of the owid-catalog dataset store (`owid/catalog/datasets.py`).

A `Dataset` is a directory holding tabular data files plus a metadata index
at `index.json`.  This file gives a shallow embedding of the operations of
`Dataset` (`create_empty`, `add`, `__getitem__`, `__contains__`, `__len__`,
`__iter__`, `_data_files`, `checksum`) and of the module-level helper
`checksum_file`, and proves the specified properties about them.

Modelling conventions:
* The dataset directory is a finite association list from filename (relative
  to the dataset directory) to file content (`Dir α`).  The list order models
  the unspecified file-system enumeration order seen by `glob`.
* Machine-level hashing (`hashlib.md5`) is embedded as an executable MD5
  implementation over byte lists (RFC 1321); the incremental
  `md5().update(...)` interface is modelled by concatenating the fed bytes
  and hashing the concatenation, which is exactly the semantics of
  incremental MD5.
* The collaborators that are not part of `datasets.py` (the `Table` codec in
  `tables.py` and the `DatasetMeta` document in `meta.py`) are modelled from
  the spec's collaborator contracts; each such definition is marked
  `Modelled from the spec:` in its doc comment.
* Fallible operations return `Except DSErr`; each error constructor is tied
  to a concrete `raise` site or propagated OS error.
-/

namespace OwidCatalog

/-- Errors surfaced by the dataset store, following the spec's taxonomy.
`conflictError` is the `raise Exception("refuse to overwrite non-dataset dir …")`
at `Dataset.create_empty`; `keyError` is the `raise KeyError(name)` in
`Dataset.__getitem__`; `validationError` is the
`raise Exception("Format '…' is not supported")` in `Dataset.add`;
`fileNotFound` is a propagated `FileNotFoundError` from `open`/`mkdir`/load;
`fileExists` is the `FileExistsError` that `mkdir` raises on an occupied path;
`decodeError` is a propagated decoding failure from the Table codec. -/
inductive DSErr where
  | conflictError
  | keyError (name : String)
  | validationError (format : String)
  | fileNotFound (path : String)
  | fileExists (path : String)
  | decodeError (what : String)
deriving DecidableEq, Repr

/-- A directory's contents: an association list from filename (relative to the
dataset directory) to file content.  The list order models file-system
enumeration order; a real directory has no duplicate filenames, which theorems
assume as `Nodup` hypotheses where it matters. -/
abbrev Dir (α : Type) : Type := List (String × α)

/-- The filenames present in a directory. -/
def keys {α : Type} (d : Dir α) : List String := d.map Prod.fst

/-- Look a filename up in a directory (`os.path.exists` + reading the file). -/
def lookupFile {α : Type} : Dir α → String → Option α
  | [], _ => none
  | (k, v) :: rest, n => if k = n then some v else lookupFile rest n

/-- Write a file: overwrite the entry if the name is present, append it
otherwise.  This is the effect of `open(path, "w")` on a directory. -/
def setFile {α : Type} : Dir α → String → α → Dir α
  | [], n, c => [(n, c)]
  | (k, v) :: rest, n, c => if k = n then (n, c) :: rest else (k, v) :: setFile rest n c

/-! Lexicographic filename order.

Python's `sorted` compares strings lexicographically by Unicode code point.
`strLe` is that order as an executable Boolean predicate over `String.data`. -/

/-- Lexicographic (code-point) comparison of character lists. -/
def lexLe : List Char → List Char → Bool
  | [], _ => true
  | _ :: _, [] => false
  | a :: as, b :: bs =>
    if a < b then true
    else if b < a then false
    else lexLe as bs

/-- Lexicographic order on filenames, as used by Python's `sorted`. -/
def fileOrder (a b : String) : Prop := lexLe a.data b.data = true

instance : DecidableRel fileOrder := fun a b => instDecidableEqBool (lexLe a.data b.data) true

theorem lexLe_total : ∀ a b : List Char, lexLe a b = true ∨ lexLe b a = true
  | [], _ => Or.inl rfl
  | _ :: _, [] => Or.inr rfl
  | a :: as, b :: bs => by
    by_cases hab : a < b
    · exact Or.inl (by simp [lexLe, hab])
    · by_cases hba : b < a
      · exact Or.inr (by simp [lexLe, hba])
      · have h := lexLe_total as bs
        rcases h with h | h
        · exact Or.inl (by simp [lexLe, hab, hba, h])
        · exact Or.inr (by simp [lexLe, hab, hba, h])

theorem lexLe_antisymm : ∀ a b : List Char, lexLe a b = true → lexLe b a = true → a = b
  | [], [], _, _ => rfl
  | [], _ :: _, _, h => by simp [lexLe] at h
  | _ :: _, [], h, _ => by simp [lexLe] at h
  | a :: as, b :: bs, h₁, h₂ => by
    by_cases hab : a < b
    · simp [lexLe, hab, asymm hab] at h₂
    · by_cases hba : b < a
      · simp [lexLe, hab, hba] at h₁
      · have hab' : a = b := le_antisymm (not_lt.mp hba) (not_lt.mp hab)
        subst hab'
        simp only [lexLe, lt_irrefl, if_false] at h₁ h₂
        exact congrArg (a :: ·) (lexLe_antisymm as bs h₁ h₂)

theorem lexLe_trans : ∀ a b c : List Char,
    lexLe a b = true → lexLe b c = true → lexLe a c = true
  | [], _, _, _, _ => rfl
  | _ :: _, [], _, h, _ => by simp [lexLe] at h
  | _ :: _, _ :: _, [], _, h => by simp [lexLe] at h
  | a :: as, b :: bs, c :: cs, h₁, h₂ => by
    by_cases hab : a < b
    · by_cases hbc : b < c
      · simp [lexLe, lt_trans hab hbc]
      · by_cases hcb : c < b
        · simp [lexLe, hbc, hcb] at h₂
        · have : b = c := le_antisymm (not_lt.mp hcb) (not_lt.mp hbc)
          subst this
          simp [lexLe, hab]
    · by_cases hba : b < a
      · simp [lexLe, hab, hba] at h₁
      · have hab' : a = b := le_antisymm (not_lt.mp hba) (not_lt.mp hab)
        subst hab'
        simp only [lexLe, lt_irrefl, if_false] at h₁
        by_cases hac : a < c
        · simp [lexLe, hac]
        · by_cases hca : c < a
          · simp [lexLe, hac, hca] at h₂
          · simp only [lexLe, hac, hca, if_false] at h₂ ⊢
            exact lexLe_trans as bs cs h₁ h₂

instance : IsTotal String fileOrder :=
  ⟨fun a b => lexLe_total a.data b.data⟩

instance : IsTrans String fileOrder :=
  ⟨fun a b c => lexLe_trans a.data b.data c.data⟩

instance : IsAntisymm String fileOrder :=
  ⟨fun a b h₁ h₂ => by
    cases a with
    | mk la => cases b with
      | mk lb => exact congrArg String.mk (lexLe_antisymm la lb h₁ h₂)⟩

/-! Glob matching and sidecar paths. -/

/-- Whether `glob` with pattern `*<ext>` matches filename `f`: the name must
end with `ext` and, since `*` in `glob` never matches a leading dot, must not
be a hidden file. -/
def globMatch (ext : String) (f : String) : Bool :=
  ext.data.isSuffixOf f.data && !(f.data.head? = some '.' : Bool)

/-- A filename matched by either data-file pattern (`*.feather` or `*.csv`). -/
def isDataName (f : String) : Bool :=
  globMatch ".feather" f || globMatch ".csv" f

/-- Drop everything up to and including the first `'.'` of a reversed
character list; `none` when there is no dot.  Helper for `metaName`. -/
def dropExtRev : List Char → Option (List Char)
  | [] => none
  | c :: rest => if c = '.' then some rest else dropExtRev rest

/-- Model of `Path(f).with_suffix(".meta.json")`: replace the last extension of `f`
with `.meta.json` (append when `f` has no extension).  In `checksum` this is
only applied to names matched by `*.feather`/`*.csv`, which always carry an
extension and a nonempty, non-hidden stem, so the last-dot rule coincides
with `pathlib`'s suffix rule on every reachable input. -/
def metaName (f : String) : String :=
  match dropExtRev f.data.reverse with
  | some stemRev => String.mk (stemRev.reverse ++ ".meta.json".data)
  | none => String.mk (f.data ++ ".meta.json".data)

/-! MD5, a shallow embedding of `hashlib.md5` (RFC 1321).

Bytes are `Nat`s below 256; words are `Nat`s below `2^32` with explicit
`% 2^32` wherever overflow matters. -/

/-- Truncate to a 32-bit word. -/
def w32 (n : Nat) : Nat := n % 2 ^ 32

/-- Rotate a 32-bit word left by `s` bits. -/
def rotl32 (x s : Nat) : Nat := w32 (x <<< s) ||| (x >>> (32 - s))

/-- The 64 MD5 sine-derived constants `K[i] = ⌊2^32·|sin(i+1)|⌋`. -/
def md5K : List Nat :=
  [0xd76aa478, 0xe8c7b756, 0x242070db, 0xc1bdceee,
   0xf57c0faf, 0x4787c62a, 0xa8304613, 0xfd469501,
   0x698098d8, 0x8b44f7af, 0xffff5bb1, 0x895cd7be,
   0x6b901122, 0xfd987193, 0xa679438e, 0x49b40821,
   0xf61e2562, 0xc040b340, 0x265e5a51, 0xe9b6c7aa,
   0xd62f105d, 0x02441453, 0xd8a1e681, 0xe7d3fbc8,
   0x21e1cde6, 0xc33707d6, 0xf4d50d87, 0x455a14ed,
   0xa9e3e905, 0xfcefa3f8, 0x676f02d9, 0x8d2a4c8a,
   0xfffa3942, 0x8771f681, 0x6d9d6122, 0xfde5380c,
   0xa4beea44, 0x4bdecfa9, 0xf6bb4b60, 0xbebfbc70,
   0x289b7ec6, 0xeaa127fa, 0xd4ef3085, 0x04881d05,
   0xd9d4d039, 0xe6db99e5, 0x1fa27cf8, 0xc4ac5665,
   0xf4292244, 0x432aff97, 0xab9423a7, 0xfc93a039,
   0x655b59c3, 0x8f0ccc92, 0xffeff47d, 0x85845dd1,
   0x6fa87e4f, 0xfe2ce6e0, 0xa3014314, 0x4e0811a1,
   0xf7537e82, 0xbd3af235, 0x2ad7d2bb, 0xeb86d391]

/-- The 64 per-round MD5 left-rotation amounts. -/
def md5S : List Nat :=
  [7, 12, 17, 22, 7, 12, 17, 22, 7, 12, 17, 22, 7, 12, 17, 22,
   5, 9, 14, 20, 5, 9, 14, 20, 5, 9, 14, 20, 5, 9, 14, 20,
   4, 11, 16, 23, 4, 11, 16, 23, 4, 11, 16, 23, 4, 11, 16, 23,
   6, 10, 15, 21, 6, 10, 15, 21, 6, 10, 15, 21, 6, 10, 15, 21]

/-- MD5 padding: append `0x80`, zero bytes up to 56 mod 64, then the original
bit length modulo `2^64` as eight little-endian bytes. -/
def md5Pad (msg : List Nat) : List Nat :=
  let len := msg.length
  let zeros := (120 - (len + 1) % 64) % 64
  let bitLen := (8 * len) % 2 ^ 64
  msg ++ 0x80 :: List.replicate zeros 0 ++
    (List.range 8).map (fun j => bitLen / 256 ^ j % 256)

/-- Split a byte list into successive 64-byte chunks. -/
def toChunks (l : List Nat) : List (List Nat) :=
  if l = [] then [] else l.take 64 :: toChunks (l.drop 64)
termination_by l.length
decreasing_by
  rename_i h
  cases l with
  | nil => exact absurd rfl h
  | cons x xs => simp [List.length_drop]; omega

/-- One MD5 round on registers `(a, b, c, d)` with message schedule `M`. -/
def md5Round (M : Nat → Nat) (st : Nat × Nat × Nat × Nat) (i : Nat) :
    Nat × Nat × Nat × Nat :=
  let (a, b, c, d) := st
  let f :=
    if i < 16 then (b &&& c) ||| ((b ^^^ 0xffffffff) &&& d)
    else if i < 32 then (d &&& b) ||| ((d ^^^ 0xffffffff) &&& c)
    else if i < 48 then b ^^^ c ^^^ d
    else c ^^^ (b ||| (d ^^^ 0xffffffff))
  let g :=
    if i < 16 then i
    else if i < 32 then (5 * i + 1) % 16
    else if i < 48 then (3 * i + 5) % 16
    else (7 * i) % 16
  let rotated := rotl32 (w32 (a + f + md5K.getD i 0 + M g)) (md5S.getD i 0)
  (d, w32 (b + rotated), b, c)

/-- Absorb one 64-byte chunk into the MD5 state. -/
def md5Chunk (st : Nat × Nat × Nat × Nat) (chunk : List Nat) :
    Nat × Nat × Nat × Nat :=
  let M : Nat → Nat := fun g =>
    chunk.getD (4 * g) 0 + 256 * chunk.getD (4 * g + 1) 0 +
      65536 * chunk.getD (4 * g + 2) 0 + 16777216 * chunk.getD (4 * g + 3) 0
  let (a0, b0, c0, d0) := st
  let (a, b, c, d) := (List.range 64).foldl (md5Round M) (a0, b0, c0, d0)
  (w32 (a0 + a), w32 (b0 + b), w32 (c0 + c), w32 (d0 + d))

/-- A 32-bit word as four little-endian bytes. -/
def le4 (w : Nat) : List Nat :=
  [w % 256, w / 256 % 256, w / 65536 % 256, w / 16777216 % 256]

/-- The 16-byte MD5 digest of a byte string (`hashlib.md5(msg).digest()`). -/
def md5digest (msg : List Nat) : List Nat :=
  let st := (toChunks (md5Pad msg)).foldl md5Chunk
    (0x67452301, 0xefcdab89, 0x98badcfe, 0x10325476)
  le4 st.1 ++ le4 st.2.1 ++ le4 st.2.2.1 ++ le4 st.2.2.2

/-- One lowercase hexadecimal digit. -/
def hexDigit (n : Nat) : Char :=
  Char.ofNat (if n < 10 then 48 + n else 87 + n)

/-- Bytes rendered as `"%02x" * len`, i.e. lowercase hexadecimal. -/
def bytesToHexChars (bs : List Nat) : List Char :=
  bs.foldr (fun b acc => hexDigit (b / 16 % 16) :: hexDigit (b % 16) :: acc) []

/-- A byte string as its canonical lowercase hexadecimal string
(`hashlib`'s `hexdigest` rendering). -/
def bytesToHex (bs : List Nat) : String :=
  String.mk (bytesToHexChars bs)

/-! The Table collaborator (spec-modelled). -/

/-- Modelled from the spec: the Table collaborator (`owid.catalog.tables` is
not under `src/`).  A table exposes a validated name
(`table.metadata.checked_name`) usable as a filesystem-safe base name; its
tabular content is opaque to the dataset core and is modelled as rows of
cells. -/
structure Table where
  checked_name : String
  rows : List (List String)
deriving DecidableEq, Repr

/-- The two on-disk table formats of the directory layout. -/
inductive Format where
  | feather
  | csv
deriving DecidableEq, Repr

/-- Modelled from the spec: the content of one file in the dataset directory.
The Table codec (`write(table, path, format)` / `read(path, format) → table`)
stores a table encoded in the chosen format; every other file (the index, the
sidecars, or foreign files) holds raw bytes. -/
inductive FileContent where
  | raw (bytes : List Nat)
  | table (format : Format) (t : Table)
deriving DecidableEq, Repr

/-- Modelled from the spec: `tables.Table.read_feather` — decode a file as a
columnar table, failing on content that is not feather-encoded. -/
def Table.read_feather : FileContent → Except DSErr Table
  | .table .feather t => .ok t
  | _ => .error (.decodeError "feather")

/-- Modelled from the spec: `tables.Table.read_csv` — decode a file as a
row-oriented table, failing on content that is not csv-encoded. -/
def Table.read_csv : FileContent → Except DSErr Table
  | .table .csv t => .ok t
  | _ => .error (.decodeError "csv")

/-- Read the file at `name` and decode it with `dec`; a missing file is a
propagated `FileNotFoundError`. -/
def readAt (dec : FileContent → Except DSErr Table) (d : Dir FileContent)
    (name : String) : Except DSErr Table :=
  match lookupFile d name with
  | some c => dec c
  | none => .error (.fileNotFound name)

/-! Dataset operations (`owid/catalog/datasets.py`). -/

/-- The formats accepted by `Dataset.add` (`allowed_formats`). -/
def allowed_formats : List String := ["feather", "csv"]

namespace Dataset

/-- Embedding of `Dataset._data_files`:
`sorted(glob(join(path, "*.feather")) + glob(join(path, "*.csv")))`.
The two `glob` calls enumerate the directory in file-system order; the
concatenation is then sorted lexicographically. -/
def data_files {α : Type} (d : Dir α) : List String :=
  List.insertionSort fileOrder
    ((keys d).filter (globMatch ".feather") ++ (keys d).filter (globMatch ".csv"))

/-- Embedding of `Dataset.__len__`: `len(self._data_files)`. -/
def length {α : Type} (d : Dir α) : Nat := (data_files d).length

/-- Embedding of `Dataset.__iter__`: yield `tables.Table.read_feather(filename)` for each
data file, in `_data_files` order.  (The source reads every data file —
including `*.csv` files — with the feather codec.) -/
def iterTables (d : Dir FileContent) : List (Except DSErr Table) :=
  (data_files d).map (readAt Table.read_feather d)

/-- Embedding of `Dataset.__getitem__`: probe `<name>.feather`, then `<name>.csv`, decode
the first hit with the corresponding codec, and `raise KeyError(name)` when
neither file exists. -/
def get (d : Dir FileContent) (name : String) : Except DSErr Table :=
  if (lookupFile d (name ++ ".feather")).isSome then
    readAt Table.read_feather d (name ++ ".feather")
  else if (lookupFile d (name ++ ".csv")).isSome then
    readAt Table.read_csv d (name ++ ".csv")
  else .error (.keyError name)

/-- Embedding of `Dataset.__contains__`: existence probe over the same two filenames. -/
def contains (d : Dir FileContent) (name : String) : Bool :=
  (lookupFile d (name ++ ".feather")).isSome ||
    (lookupFile d (name ++ ".csv")).isSome

/-- Embedding of `Dataset.add`: reject a format outside `allowed_formats`, then write the
table to `<path>/<checked_name>.<format>` via `to_feather`/`to_csv`.
Modelled from the spec for the codec half: `write(table, path, format)`
writes exactly the one file at `path`. -/
def add (d : Dir FileContent) (t : Table) (format : String) :
    Except DSErr (Dir FileContent) :=
  if ¬ allowed_formats.contains format then
    .error (.validationError format)
  else
    let table_filename := t.checked_name ++ "." ++ format
    if format = "feather" then
      .ok (setFile d table_filename (.table .feather t))
    else
      .ok (setFile d table_filename (.table .csv t))

/-- Embedding of `checksum_file`: the MD5 of one file's bytes.  The source reads the file
in 1 MiB chunks and feeds them to an incremental MD5; feeding successive
chunks is hashing their concatenation, i.e. the whole file. A missing file is
a propagated `FileNotFoundError` from `open`. -/
def checksum_file (d : Dir (List Nat)) (name : String) :
    Except DSErr (List Nat) :=
  match lookupFile d name with
  | some bs => .ok (md5digest bs)
  | none => .error (.fileNotFound name)

/-- The per-data-file loop of `Dataset.checksum`: for each data file, feed the
digest of the file and then the digest of its `<base>.meta.json` sidecar into
the accumulating hash (modelled as the byte buffer `acc`). -/
def checksumFold (d : Dir (List Nat)) :
    List String → List Nat → Except DSErr (List Nat)
  | [], acc => .ok acc
  | f :: fs, acc =>
    match checksum_file d f with
    | .error e => .error e
    | .ok df =>
      match checksum_file d (metaName f) with
      | .error e => .error e
      | .ok mf => checksumFold d fs ((acc ++ df) ++ mf)

/-- Embedding of `Dataset.checksum`: seed an MD5 with the digest of `index.json`, fold in
the digest of every data file and of its metadata sidecar in `_data_files`
order, and return the final hex digest.  The checksum claims are byte-level,
so here the directory maps each filename to the bytes `open(file, "rb")`
would read. -/
def checksum (d : Dir (List Nat)) : Except DSErr String :=
  match checksum_file d "index.json" with
  | .error e => .error e
  | .ok d0 =>
    match checksumFold d (data_files d) d0 with
    | .error e => .error e
    | .ok buf => .ok (bytesToHex (md5digest buf))

end Dataset

/-! Directory lifecycle (`Dataset.create_empty`). -/

/-- What occupies the target path of `create_empty`: nothing, a regular file,
or a directory with the given contents. -/
inductive PathState (α : Type) where
  | absent
  | file
  | dir (entries : Dir α)
deriving DecidableEq

/-- An open store handle: `Dataset(path)` loads the metadata document from
`index.json` eagerly and keeps it in memory.  Modelled from the spec for the
document itself: `DatasetMeta` (in `meta.py`, not under `src/`) is an opaque
document type `α` with a default construction, passed as `defaultDoc`. -/
structure DatasetHandle (α : Type) where
  metadata : α
deriving DecidableEq, Repr

/-- Embedding of `Dataset.create_empty`: if the target is a directory with an `index.json`
it is recursively removed and recreated; a directory without an `index.json`
is refused (`raise Exception("refuse to overwrite non-dataset dir …")`,
the spec's `ConflictError`) before anything is deleted; otherwise `mkdir`
(which fails with `FileExistsError` on a regular file) and write a
default-constructed metadata document — the `metadata` argument is accepted
but never used by the source — then return `Dataset(path)`, whose constructor
loads the document back from `index.json`.  The returned pair is the state of
the target path after the call and the call's outcome. -/
def Dataset.create_empty {α : Type} (defaultDoc : α) (st : PathState α)
    (metadata : Option α) : PathState α × Except DSErr (DatasetHandle α) :=
  match st, metadata with
  | .dir entries, _ =>
    if (lookupFile entries "index.json").isSome then
      (.dir [("index.json", defaultDoc)], .ok ⟨defaultDoc⟩)
    else
      (.dir entries, .error .conflictError)
  | .file, _ => (.file, .error (.fileExists "path"))
  | .absent, _ => (.dir [("index.json", defaultDoc)], .ok ⟨defaultDoc⟩)

/-! Helper lemmas. -/

theorem keys_cons {α : Type} (p : String × α) (d : Dir α) :
    keys (p :: d) = p.1 :: keys d := rfl

theorem lookupFile_setFile_self {α : Type} (d : Dir α) (n : String) (c : α) :
    lookupFile (setFile d n c) n = some c := by
  induction d with
  | nil => simp [setFile, lookupFile]
  | cons p rest ih =>
    obtain ⟨k, v⟩ := p
    by_cases hk : k = n
    · simp [setFile, hk, lookupFile]
    · simp [setFile, hk, lookupFile, ih]

theorem lookupFile_setFile_ne {α : Type} (d : Dir α) {n m : String} (c : α)
    (h : m ≠ n) : lookupFile (setFile d n c) m = lookupFile d m := by
  induction d with
  | nil => simp [setFile, lookupFile, Ne.symm h]
  | cons p rest ih =>
    obtain ⟨k, v⟩ := p
    by_cases hk : k = n
    · subst hk
      simp [setFile, lookupFile, Ne.symm h]
    · simp only [setFile, hk, if_false, lookupFile, ih]

theorem lookupFile_perm {α : Type} {d₁ d₂ : Dir α} (h : d₁.Perm d₂) :
    (keys d₁).Nodup → ∀ n, lookupFile d₁ n = lookupFile d₂ n := by
  induction h with
  | nil => intro _ n; rfl
  | cons x h ih =>
    intro nd n
    obtain ⟨k, v⟩ := x
    simp only [keys_cons, List.nodup_cons] at nd
    by_cases hk : k = n
    · simp [lookupFile, hk]
    · simp [lookupFile, hk, ih nd.2 n]
  | swap x y l =>
    intro nd n
    obtain ⟨k₁, v₁⟩ := x
    obtain ⟨k₂, v₂⟩ := y
    have hne : k₂ ≠ k₁ := by
      intro hh
      subst hh
      simp [keys] at nd
    by_cases h₂ : k₂ = n
    · subst h₂
      simp [lookupFile, hne, Ne.symm hne]
    · by_cases h₁ : k₁ = n
      · subst h₁
        simp [lookupFile, hne, h₂]
      · simp [lookupFile, h₁, h₂]
  | trans h₁₂ h₂₃ ih₁ ih₂ =>
    intro nd n
    have nd₂ : (keys _).Nodup := ((h₁₂.map Prod.fst).nodup_iff).mp nd
    exact (ih₁ nd n).trans (ih₂ nd₂ n)

theorem data_files_sorted {α : Type} (d : Dir α) :
    List.Sorted fileOrder (Dataset.data_files d) :=
  List.sorted_insertionSort fileOrder _

theorem data_files_eq_of_perm {α : Type} {d₁ d₂ : Dir α} (h : d₁.Perm d₂) :
    Dataset.data_files d₁ = Dataset.data_files d₂ := by
  have hk : (keys d₁).Perm (keys d₂) := h.map Prod.fst
  have hperm :
      ((keys d₁).filter (globMatch ".feather") ++
        (keys d₁).filter (globMatch ".csv")).Perm
      ((keys d₂).filter (globMatch ".feather") ++
        (keys d₂).filter (globMatch ".csv")) :=
    (hk.filter _).append (hk.filter _)
  exact List.eq_of_perm_of_sorted
    (((List.perm_insertionSort fileOrder _).trans hperm).trans
      (List.perm_insertionSort fileOrder _).symm)
    (data_files_sorted d₁) (data_files_sorted d₂)

theorem mem_data_files_iff {α : Type} (d : Dir α) (f : String) :
    f ∈ Dataset.data_files d ↔
      f ∈ keys d ∧ (globMatch ".feather" f = true ∨ globMatch ".csv" f = true) := by
  unfold Dataset.data_files
  rw [(List.perm_insertionSort fileOrder _).mem_iff]
  simp only [List.mem_append, List.mem_filter]
  constructor
  · rintro (⟨hm, hf⟩ | ⟨hm, hf⟩)
    · exact ⟨hm, Or.inl hf⟩
    · exact ⟨hm, Or.inr hf⟩
  · rintro ⟨hm, hf | hf⟩
    · exact Or.inl ⟨hm, hf⟩
    · exact Or.inr ⟨hm, hf⟩

theorem checksum_file_congr {d₁ d₂ : Dir (List Nat)}
    (h : ∀ n, lookupFile d₁ n = lookupFile d₂ n) (n : String) :
    Dataset.checksum_file d₁ n = Dataset.checksum_file d₂ n := by
  unfold Dataset.checksum_file
  rw [h n]

theorem checksumFold_congr {d₁ d₂ : Dir (List Nat)}
    (h : ∀ n, lookupFile d₁ n = lookupFile d₂ n) (fs : List String)
    (acc : List Nat) :
    Dataset.checksumFold d₁ fs acc = Dataset.checksumFold d₂ fs acc := by
  induction fs generalizing acc with
  | nil => rfl
  | cons f fs ih =>
    unfold Dataset.checksumFold
    rw [checksum_file_congr h f, checksum_file_congr h (metaName f)]
    cases Dataset.checksum_file d₂ f with
    | error e => rfl
    | ok df =>
      cases Dataset.checksum_file d₂ (metaName f) with
      | error e => rfl
      | ok mf => exact ih _

theorem checksum_file_error {d : Dir (List Nat)} {n : String} {e : DSErr}
    (h : Dataset.checksum_file d n = .error e) : e = .fileNotFound n := by
  unfold Dataset.checksum_file at h
  cases hl : lookupFile d n <;> rw [hl] at h <;> simp_all

theorem checksum_file_of_none {d : Dir (List Nat)} {n : String}
    (h : lookupFile d n = none) :
    Dataset.checksum_file d n = .error (.fileNotFound n) := by
  unfold Dataset.checksum_file
  rw [h]

theorem checksumFold_missing {d : Dir (List Nat)} :
    ∀ (fs : List String) (f : String), f ∈ fs →
      lookupFile d (metaName f) = none → ∀ acc,
      ∃ p, Dataset.checksumFold d fs acc = .error (.fileNotFound p) := by
  intro fs
  induction fs with
  | nil => intro f hf; simp at hf
  | cons g gs ih =>
    intro f hf hmeta acc
    cases hlg : lookupFile d g with
    | none =>
      exact ⟨g, by simp [Dataset.checksumFold, checksum_file_of_none hlg]⟩
    | some bs =>
      cases hlm : lookupFile d (metaName g) with
      | none =>
        refine ⟨metaName g, ?_⟩
        simp [Dataset.checksumFold, Dataset.checksum_file, hlg, hlm]
      | some ms =>
        have hfg : f ≠ g := by
          intro hh
          rw [hh] at hmeta
          rw [hmeta] at hlm
          exact Option.noConfusion hlm
        have hf' : f ∈ gs := by
          rcases List.mem_cons.mp hf with hh | hh
          · exact absurd hh hfg
          · exact hh
        obtain ⟨p, hp⟩ := ih f hf' hmeta ((acc ++ md5digest bs) ++ md5digest ms)
        refine ⟨p, ?_⟩
        simpa [Dataset.checksumFold, Dataset.checksum_file, hlg, hlm] using hp

theorem checksum_eq_of_perm {d₁ d₂ : Dir (List Nat)} (h : d₁.Perm d₂)
    (nd : (keys d₁).Nodup) : Dataset.checksum d₁ = Dataset.checksum d₂ := by
  have hl := lookupFile_perm h nd
  unfold Dataset.checksum
  rw [checksum_file_congr hl "index.json", data_files_eq_of_perm h]
  cases Dataset.checksum_file d₂ "index.json" with
  | error e => rfl
  | ok d0 => simp [checksumFold_congr hl (Dataset.data_files d₂) d0]

/-! String facts for the fixed filename suffixes. -/

theorem string_append_assoc (a b c : String) : a ++ b ++ c = a ++ (b ++ c) := by
  cases a with
  | mk la =>
    cases b with
    | mk lb =>
      cases c with
      | mk lc => exact congrArg String.mk (List.append_assoc la lb lc)

theorem csv_name_ne_feather_name (s : String) : s ++ ".csv" ≠ s ++ ".feather" := by
  cases s with
  | mk l =>
    intro h
    have h' : l ++ ".csv".data = l ++ ".feather".data := congrArg String.data h
    exact absurd (List.append_cancel_left h') (by decide)

/-! Digest length and hex rendering. -/

/-- The sixteen lowercase hexadecimal digits. -/
def lowerHexChars : List Char := "0123456789abcdef".data

theorem md5digest_length (msg : List Nat) : (md5digest msg).length = 16 := by
  simp [md5digest, le4]

theorem bytesToHexChars_length (bs : List Nat) :
    (bytesToHexChars bs).length = 2 * bs.length := by
  induction bs with
  | nil => rfl
  | cons b bs ih =>
    simp [bytesToHexChars] at ih ⊢
    omega

theorem hexDigit_mem {n : Nat} (h : n < 16) : hexDigit n ∈ lowerHexChars := by
  revert h
  revert n
  decide

theorem bytesToHexChars_cons (b : Nat) (bs : List Nat) :
    bytesToHexChars (b :: bs)
      = hexDigit (b / 16 % 16) :: hexDigit (b % 16) :: bytesToHexChars bs := rfl

theorem mem_bytesToHexChars {bs : List Nat} {c : Char}
    (h : c ∈ bytesToHexChars bs) : c ∈ lowerHexChars := by
  induction bs with
  | nil => simp [bytesToHexChars] at h
  | cons b bs ih =>
    rw [bytesToHexChars_cons] at h
    rcases List.mem_cons.mp h with rfl | h
    · exact hexDigit_mem (Nat.mod_lt _ (by norm_num))
    · rcases List.mem_cons.mp h with rfl | h
      · exact hexDigit_mem (Nat.mod_lt _ (by norm_num))
      · exact ih h

theorem checksum_ok_shape {d : Dir (List Nat)} {s : String}
    (h : Dataset.checksum d = .ok s) :
    ∃ buf, s = bytesToHex (md5digest buf) := by
  unfold Dataset.checksum at h
  cases h₀ : Dataset.checksum_file d "index.json" with
  | error e => simp [h₀] at h
  | ok d0 =>
    cases h₁ : Dataset.checksumFold d (Dataset.data_files d) d0 with
    | error e => simp [h₀, h₁] at h
    | ok buf =>
      simp [h₀, h₁] at h
      exact ⟨buf, h.symm⟩

/-! The claims. -/

/-- Claim C1: for every existing directory that does not contain an index file
at `index.json`, `create_empty` on that directory fails with the refusal
error (the spec's `ConflictError`) and deletes nothing: the directory's
contents after the failed call are exactly the contents before it. -/
theorem create_empty_refuses_nonstore_dir {α : Type} (defaultDoc : α)
    (entries : Dir α) (metadata : Option α)
    (h : lookupFile entries "index.json" = none) :
    Dataset.create_empty defaultDoc (PathState.dir entries) metadata
      = (PathState.dir entries, Except.error DSErr.conflictError) := by
  unfold Dataset.create_empty
  cases metadata <;> simp [h]

theorem create_empty_refuses_nonstore_dir_witness :
    lookupFile [("notes.txt", (7 : Nat))] "index.json" = none
    ∧ Dataset.create_empty 0 (PathState.dir [("notes.txt", 7)]) none
        = (PathState.dir [("notes.txt", 7)], Except.error DSErr.conflictError) :=
  ⟨by decide, create_empty_refuses_nonstore_dir 0 [("notes.txt", 7)] none (by decide)⟩

/-- Claim C3 (code bug): the source `create_empty` accepts an optional metadata document
but never writes it: the call is insensitive to the `metadata` argument, and
on a fresh path with a supplied document `M ≠ default` it still writes the
default-constructed document to `index.json` and returns a handle holding the
default — contradicting the declared `metadata: Optional[DatasetMeta]`
parameter and the spec's "write a fresh (default or supplied) metadata
document". -/
theorem create_empty_ignores_supplied_metadata :
    (∀ (α : Type) (defaultDoc : α) (st : PathState α) (m : Option α),
        Dataset.create_empty defaultDoc st m
          = Dataset.create_empty defaultDoc st none)
    ∧ Dataset.create_empty (0 : Nat) PathState.absent (some 1)
        = (PathState.dir [("index.json", 0)], Except.ok ⟨0⟩)
    ∧ (0 : Nat) ≠ 1 := by
  refine ⟨?_, rfl, by decide⟩
  intro α defaultDoc st m
  cases st <;> cases m <;> rfl

/-- Claim C2: for a directory holding exactly `index.json` (bytes `A`),
`dog.feather` (bytes `B`) and `dog.meta.json` (bytes `C`), `checksum` returns
`MD5(MD5(A) ++ MD5(B) ++ MD5(C))` rendered in hexadecimal — `MD5(X)` being
the 16-byte digest — and, in general, every successful checksum is a
32-character lowercase hexadecimal string. -/
theorem checksum_of_single_table_store (A B C : List Nat) :
    Dataset.checksum [("index.json", A), ("dog.feather", B), ("dog.meta.json", C)]
      = Except.ok (bytesToHex (md5digest ((md5digest A ++ md5digest B) ++ md5digest C)))
    ∧ ∀ (d : Dir (List Nat)) (s : String), Dataset.checksum d = Except.ok s →
        s.length = 32 ∧ ∀ c ∈ s.data, c ∈ lowerHexChars := by
  constructor
  · rfl
  · intro d s hs
    obtain ⟨buf, rfl⟩ := checksum_ok_shape hs
    constructor
    · show (bytesToHexChars (md5digest buf)).length = 32
      rw [bytesToHexChars_length, md5digest_length]
    · intro c hc
      exact mem_bytesToHexChars hc

theorem checksum_of_single_table_store_witness :
    Dataset.checksum [("index.json", [0]), ("dog.feather", [1]), ("dog.meta.json", [2])]
      = Except.ok (bytesToHex (md5digest ((md5digest [0] ++ md5digest [1]) ++ md5digest [2]))) :=
  (checksum_of_single_table_store [0] [1] [2]).1

/-- Claim C5: whenever some data file of the dataset has no
`<base>.meta.json` sidecar, `checksum` aborts with a file-not-found error —
the routine reads the sidecar of every data file unconditionally — and no
checksum string is returned. -/
theorem checksum_missing_sidecar_aborts (d : Dir (List Nat))
    (h : ∃ f ∈ Dataset.data_files d, lookupFile d (metaName f) = none) :
    (∃ p, Dataset.checksum d = Except.error (DSErr.fileNotFound p))
    ∧ ∀ s, Dataset.checksum d ≠ Except.ok s := by
  have main : ∃ p, Dataset.checksum d = Except.error (DSErr.fileNotFound p) := by
    obtain ⟨f, hf, hm⟩ := h
    unfold Dataset.checksum
    cases h₀ : Dataset.checksum_file d "index.json" with
    | error e =>
      obtain rfl := checksum_file_error h₀
      exact ⟨"index.json", rfl⟩
    | ok d0 =>
      obtain ⟨p, hp⟩ := checksumFold_missing (Dataset.data_files d) f hf hm d0
      exact ⟨p, by simp [hp]⟩
  refine ⟨main, ?_⟩
  obtain ⟨p, hp⟩ := main
  intro s hs
  rw [hp] at hs
  exact Except.noConfusion hs

theorem checksum_missing_sidecar_aborts_witness :
    (∃ f ∈ Dataset.data_files [("index.json", ([] : List Nat)), ("dog.feather", [1])],
        lookupFile [("index.json", ([] : List Nat)), ("dog.feather", [1])] (metaName f) = none)
    ∧ ∃ p, Dataset.checksum [("index.json", ([] : List Nat)), ("dog.feather", [1])]
        = Except.error (DSErr.fileNotFound p) :=
  ⟨by decide, (checksum_missing_sidecar_aborts
    [("index.json", ([] : List Nat)), ("dog.feather", [1])] (by decide)).1⟩

/-- Claim C6: the checksum is deterministic in directory contents: directories
with the same files (same filenames, byte-identical contents), however the
file system enumerates them, yield the same checksum; and the fold order is
lexicographic by filename (`_data_files` is sorted). -/
theorem checksum_deterministic_in_contents :
    (∀ d₁ d₂ : Dir (List Nat), d₁.Perm d₂ → (keys d₁).Nodup →
        Dataset.checksum d₁ = Dataset.checksum d₂)
    ∧ ∀ d : Dir (List Nat), List.Sorted fileOrder (Dataset.data_files d) :=
  ⟨fun _ _ h nd => checksum_eq_of_perm h nd, fun d => data_files_sorted d⟩

theorem checksum_deterministic_in_contents_witness :
    Dataset.checksum [("dog.csv", [5]), ("dog.meta.json", [6]), ("index.json", [7])]
      = Dataset.checksum [("index.json", [7]), ("dog.meta.json", [6]), ("dog.csv", [5])] :=
  checksum_deterministic_in_contents.1 _ _ (by decide) (by decide)

/-! Table retrieval facts. -/

theorem read_feather_ne_keyError (c : FileContent) (n : String) :
    Table.read_feather c ≠ Except.error (DSErr.keyError n) := by
  cases c with
  | raw bs => simp [Table.read_feather]
  | table fmt t => cases fmt <;> simp [Table.read_feather]

theorem read_csv_ne_keyError (c : FileContent) (n : String) :
    Table.read_csv c ≠ Except.error (DSErr.keyError n) := by
  cases c with
  | raw bs => simp [Table.read_csv]
  | table fmt t => cases fmt <;> simp [Table.read_csv]

theorem filter_append_perm_or {α : Type} (p q : α → Bool) (l : List α)
    (hdisj : ∀ x, ¬(p x = true ∧ q x = true)) :
    (l.filter p ++ l.filter q).Perm (l.filter (fun x => p x || q x)) := by
  induction l with
  | nil => simp
  | cons a t ih =>
    cases hp : p a with
    | true =>
      cases hq : q a with
      | true => exact absurd ⟨hp, hq⟩ (hdisj a)
      | false =>
        simp only [List.filter_cons, hp, hq, Bool.true_or, if_true, List.cons_append]
        exact ih.cons a
    | false =>
      cases hq : q a with
      | true =>
        simp only [List.filter_cons, hp, hq, Bool.false_or]
        exact List.perm_middle.trans (ih.cons a)
      | false =>
        simp only [List.filter_cons, hp, hq, Bool.false_or]
        exact ih

theorem globMatch_feather_csv_disjoint (f : String) :
    ¬(globMatch ".feather" f = true ∧ globMatch ".csv" f = true) := by
  rintro ⟨h₁, h₂⟩
  simp only [globMatch, Bool.and_eq_true, List.isSuffixOf_iff_suffix] at h₁ h₂
  rcases List.suffix_or_suffix_of_suffix h₁.1 h₂.1 with h | h
  · exact absurd h (by decide)
  · exact absurd h (by decide)

/-! Fixed example tables for the concrete inputs below. -/

/-- A table named `dog` with one cell `1`. -/
def tDog1 : Table := ⟨"dog", [["1"]]⟩

/-- A different table with the same name `dog`. -/
def tDog2 : Table := ⟨"dog", [["2"]]⟩

/-- Claim C4 (as frozen, refuted): the source `add` does not remove a same-name file of the
other format, and `get` prefers the columnar file: starting from a directory
that already holds `dog.feather` encoding `tDog1`, adding `tDog2` as csv
succeeds, yet `get "dog"` still returns `tDog1 ≠ tDog2`. -/
theorem add_csv_shadowed_counterexample :
    Dataset.add [("dog.feather", FileContent.table Format.feather tDog1)] tDog2 "csv"
      = Except.ok [("dog.feather", FileContent.table Format.feather tDog1),
          ("dog.csv", FileContent.table Format.csv tDog2)]
    ∧ Dataset.get [("dog.feather", FileContent.table Format.feather tDog1),
          ("dog.csv", FileContent.table Format.csv tDog2)] "dog" = Except.ok tDog1
    ∧ tDog1 ≠ tDog2 :=
  ⟨rfl, rfl, by decide⟩

/-- Claim C4 (amended): after `add(T, format)` with a supported format,
`contains` holds for `T`'s validated name; and `get` returns a table equal to
`T` provided the format is columnar, or no columnar file for that name
pre-exists (a pre-existing `<name>.feather` shadows a csv add). -/
theorem add_then_get (d : Dir FileContent) (t : Table) (format : String)
    (h : format = "feather" ∨ format = "csv") :
    ∃ d', Dataset.add d t format = Except.ok d'
      ∧ Dataset.contains d' t.checked_name = true
      ∧ ((format = "feather" ∨ lookupFile d (t.checked_name ++ ".feather") = none) →
          Dataset.get d' t.checked_name = Except.ok t) := by
  rcases h with rfl | rfl
  · have hlk : lookupFile (setFile d (t.checked_name ++ "." ++ "feather")
        (FileContent.table Format.feather t)) (t.checked_name ++ ".feather")
        = some (FileContent.table Format.feather t) := by
      have e : t.checked_name ++ "." ++ "feather" = t.checked_name ++ ".feather" :=
        string_append_assoc _ _ _
      rw [e]
      exact lookupFile_setFile_self d _ _
    refine ⟨_, rfl, ?_, fun _ => ?_⟩
    · simp [Dataset.contains, hlk]
    · simp [Dataset.get, hlk, readAt, Table.read_feather]
  · have e : t.checked_name ++ "." ++ "csv" = t.checked_name ++ ".csv" :=
      string_append_assoc _ _ _
    have hlk : lookupFile (setFile d (t.checked_name ++ "." ++ "csv")
        (FileContent.table Format.csv t)) (t.checked_name ++ ".csv")
        = some (FileContent.table Format.csv t) := by
      rw [e]
      exact lookupFile_setFile_self d _ _
    have hne : (t.checked_name ++ ".feather") ≠ (t.checked_name ++ "." ++ "csv") := by
      rw [e]
      exact Ne.symm (csv_name_ne_feather_name t.checked_name)
    refine ⟨_, rfl, ?_, ?_⟩
    · simp [Dataset.contains, hlk]
    · intro hin
      rcases hin with hin | hin
      · exact absurd hin (by decide)
      · have hfwd : lookupFile (setFile d (t.checked_name ++ "." ++ "csv")
            (FileContent.table Format.csv t)) (t.checked_name ++ ".feather") = none := by
          rw [lookupFile_setFile_ne d _ hne]
          exact hin
        simp [Dataset.get, hfwd, hlk, readAt, Table.read_csv]

theorem add_then_get_witness :
    Dataset.add [] tDog1 "feather"
        = Except.ok [("dog.feather", FileContent.table Format.feather tDog1)]
    ∧ Dataset.contains [("dog.feather", FileContent.table Format.feather tDog1)] "dog" = true
    ∧ Dataset.get [("dog.feather", FileContent.table Format.feather tDog1)] "dog"
        = Except.ok tDog1 := by
  obtain ⟨d', h1, h2, h3⟩ := add_then_get [] tDog1 "feather" (Or.inl rfl)
  have h0 : Dataset.add [] tDog1 "feather"
      = Except.ok [("dog.feather", FileContent.table Format.feather tDog1)] := rfl
  have hd : [("dog.feather", FileContent.table Format.feather tDog1)] = d' :=
    Except.ok.inj (h0.symm.trans h1)
  subst hd
  exact ⟨h0, h2, h3 (Or.inl rfl)⟩

/-- Claim C7: the source `get` probes `<name>.feather` first and `<name>.csv` only when the
columnar file is absent, decoding the first hit with the corresponding codec
— so when both exist, `get` and `contains` resolve to the columnar version —
and `get` raises the `KeyError` exactly when neither file exists. -/
theorem getitem_prefers_feather (d : Dir FileContent) (name : String) :
    Dataset.get d name
      = (match lookupFile d (name ++ ".feather"), lookupFile d (name ++ ".csv") with
        | some cf, _ => Table.read_feather cf
        | none, some cc => Table.read_csv cc
        | none, none => Except.error (DSErr.keyError name))
    ∧ (Dataset.get d name = Except.error (DSErr.keyError name)
        ↔ lookupFile d (name ++ ".feather") = none
          ∧ lookupFile d (name ++ ".csv") = none)
    ∧ (Dataset.contains d name = true
        ↔ ¬(lookupFile d (name ++ ".feather") = none
            ∧ lookupFile d (name ++ ".csv") = none)) := by
  cases hf : lookupFile d (name ++ ".feather") with
  | some cf =>
    refine ⟨by simp [Dataset.get, hf, readAt], ?_, by simp [Dataset.contains, hf]⟩
    simp [Dataset.get, hf, readAt, read_feather_ne_keyError]
  | none =>
    cases hc : lookupFile d (name ++ ".csv") with
    | some cc =>
      refine ⟨by simp [Dataset.get, hf, hc, readAt], ?_,
        by simp [Dataset.contains, hf, hc]⟩
      simp [Dataset.get, hf, hc, readAt, read_csv_ne_keyError]
    | none =>
      exact ⟨by simp [Dataset.get, hf, hc], by simp [Dataset.get, hf, hc],
        by simp [Dataset.contains, hf, hc]⟩

theorem getitem_prefers_feather_witness :
    Dataset.get [("dog.feather", FileContent.table Format.feather tDog1),
        ("dog.csv", FileContent.table Format.csv tDog2)] "dog" = Except.ok tDog1
    ∧ Dataset.get [("dog.csv", FileContent.table Format.csv tDog2)] "dog"
        = Except.ok tDog2
    ∧ Dataset.get ([] : Dir FileContent) "dog"
        = Except.error (DSErr.keyError "dog") := by
  refine ⟨?_, ?_, ?_⟩
  · have h := (getitem_prefers_feather [("dog.feather", FileContent.table Format.feather tDog1),
      ("dog.csv", FileContent.table Format.csv tDog2)] "dog").1
    simpa using h
  · have h := (getitem_prefers_feather [("dog.csv", FileContent.table Format.csv tDog2)] "dog").1
    simpa using h
  · have h := (getitem_prefers_feather ([] : Dir FileContent) "dog").1
    simpa using h

/-- Claim C9 (implicit): with the directory contents fixed, `contains name` is
true exactly when `get name` does not fail with the `KeyError`: the two
operations agree on the same set of names. -/
theorem contains_iff_get_no_keyError (d : Dir FileContent) (name : String) :
    Dataset.contains d name = true
      ↔ Dataset.get d name ≠ Except.error (DSErr.keyError name) := by
  cases hf : lookupFile d (name ++ ".feather") with
  | some cf =>
    simp [Dataset.contains, Dataset.get, hf, readAt, read_feather_ne_keyError]
  | none =>
    cases hc : lookupFile d (name ++ ".csv") with
    | some cc =>
      simp [Dataset.contains, Dataset.get, hf, hc, readAt, read_csv_ne_keyError]
    | none =>
      simp [Dataset.contains, Dataset.get, hf, hc]

theorem contains_iff_get_no_keyError_witness :
    (Dataset.contains [("dog.csv", FileContent.table Format.csv tDog2)] "dog" = true
      ↔ Dataset.get [("dog.csv", FileContent.table Format.csv tDog2)] "dog"
          ≠ Except.error (DSErr.keyError "dog"))
    ∧ (Dataset.contains ([] : Dir FileContent) "cat" = true
      ↔ Dataset.get ([] : Dir FileContent) "cat"
          ≠ Except.error (DSErr.keyError "cat")) :=
  ⟨contains_iff_get_no_keyError [("dog.csv", FileContent.table Format.csv tDog2)] "dog",
    contains_iff_get_no_keyError ([] : Dir FileContent) "cat"⟩

/-- Claim C8: iterating a dataset yields exactly one (lazily decoded) table per
data file matching `*.feather` or `*.csv` — each read with the feather codec
— in lexicographically sorted filename order, never including the index file,
and `len` is the number of matched data files, computed without decoding. -/
theorem iteration_enumerates_sorted_data_files (d : Dir FileContent) :
    (Dataset.iterTables d).length = Dataset.length d
    ∧ Dataset.length d = (Dataset.data_files d).length
    ∧ List.Sorted fileOrder (Dataset.data_files d)
    ∧ "index.json" ∉ Dataset.data_files d
    ∧ (∀ f ∈ Dataset.data_files d, isDataName f = true)
    ∧ (Dataset.data_files d).Perm ((keys d).filter isDataName)
    ∧ ∀ i (hi : i < (Dataset.iterTables d).length)
        (hi' : i < (Dataset.data_files d).length),
        (Dataset.iterTables d).get ⟨i, hi⟩
          = readAt Table.read_feather d ((Dataset.data_files d).get ⟨i, hi'⟩) := by
  have hmem : ∀ f ∈ Dataset.data_files d, isDataName f = true := by
    intro f hf
    rcases ((mem_data_files_iff d f).mp hf).2 with h | h <;> simp [isDataName, h]
  refine ⟨?_, rfl, data_files_sorted d, ?_, hmem, ?_, ?_⟩
  · exact List.length_map _ _
  · intro hmem'
    exact absurd (hmem _ hmem') (by decide)
  · exact (List.perm_insertionSort fileOrder _).trans
      (filter_append_perm_or _ _ _ globMatch_feather_csv_disjoint)
  · intro i hi hi'
    simp [Dataset.iterTables, List.getElem_map]

theorem iteration_enumerates_sorted_data_files_witness :
    List.Sorted fileOrder (Dataset.data_files
      [("index.json", FileContent.raw [0]),
        ("dog.feather", FileContent.table Format.feather tDog1)])
    ∧ "index.json" ∉ Dataset.data_files
      [("index.json", FileContent.raw [0]),
        ("dog.feather", FileContent.table Format.feather tDog1)] :=
  ⟨(iteration_enumerates_sorted_data_files _).2.2.1,
    (iteration_enumerates_sorted_data_files
      [("index.json", FileContent.raw [0]),
        ("dog.feather", FileContent.table Format.feather tDog1)]).2.2.2.1⟩

/-- Claim C10 (implicit): an `add` with a supported format writes exactly the one
file `<checked_name>.<format>`, silently overwriting any file already at that
path — it never fails on a supported format — and leaves every other file of
the directory untouched. -/
theorem add_writes_single_file (d : Dir FileContent) (t : Table) (format : String)
    (h : format = "feather" ∨ format = "csv") :
    ∃ d', Dataset.add d t format = Except.ok d'
      ∧ lookupFile d' (t.checked_name ++ "." ++ format)
          = some (FileContent.table
              (if format = "feather" then Format.feather else Format.csv) t)
      ∧ ∀ n, n ≠ t.checked_name ++ "." ++ format → lookupFile d' n = lookupFile d n := by
  rcases h with rfl | rfl
  · refine ⟨_, rfl, ?_, ?_⟩
    · simp [lookupFile_setFile_self]
    · intro n hn
      exact lookupFile_setFile_ne d _ hn
  · have hcf : ("csv" : String) ≠ "feather" := by decide
    refine ⟨_, rfl, ?_, ?_⟩
    · simp [hcf, lookupFile_setFile_self]
    · intro n hn
      exact lookupFile_setFile_ne d _ hn

theorem add_writes_single_file_witness :
    Dataset.add [("dog.feather", FileContent.raw [9]), ("index.json", FileContent.raw [1])]
        tDog1 "feather"
      = Except.ok [("dog.feather", FileContent.table Format.feather tDog1),
          ("index.json", FileContent.raw [1])]
    ∧ lookupFile [("dog.feather", FileContent.table Format.feather tDog1),
          ("index.json", FileContent.raw [1])] "dog.feather"
        = some (FileContent.table Format.feather tDog1)
    ∧ lookupFile [("dog.feather", FileContent.table Format.feather tDog1),
          ("index.json", FileContent.raw [1])] "index.json"
        = lookupFile [("dog.feather", FileContent.raw [9]),
          ("index.json", FileContent.raw [1])] "index.json" := by
  obtain ⟨d', h1, h2, h3⟩ := add_writes_single_file
    [("dog.feather", FileContent.raw [9]), ("index.json", FileContent.raw [1])]
    tDog1 "feather" (Or.inl rfl)
  have h0 : Dataset.add
      [("dog.feather", FileContent.raw [9]), ("index.json", FileContent.raw [1])]
      tDog1 "feather"
      = Except.ok [("dog.feather", FileContent.table Format.feather tDog1),
          ("index.json", FileContent.raw [1])] := rfl
  have hd : [("dog.feather", FileContent.table Format.feather tDog1),
      ("index.json", FileContent.raw [1])] = d' :=
    Except.ok.inj (h0.symm.trans h1)
  subst hd
  exact ⟨h0, h2, h3 "index.json" (by decide)⟩

end OwidCatalog
